import Mathlib

/-
Verification of the glyph-normalization and page-layout engine in
HandwritingEngine.py (class NormalizedHandwritingEngine).

Shallow embedding notes:
  * Machine integers are Nat/Int. Constant Python float expressions such
    as int(safe_zone * 0.65) are rendered as exact integer arithmetic
    (safeZone * 65 / 100); at the concrete constants of the source
    (std_size = 50, safe_zone = 46) the CPython double results coincide
    with the exact rational floors used here. The one input-dependent
    float computation, new_w = int(new_h * (w / h)), is modelled
    bit-exactly as IEEE-754 binary64 arithmetic (floatNewWidth below):
    a correctly rounded quotient, then a correctly rounded product, then
    truncation toward zero. The values this program can produce lie far
    inside the binary64 normal range, where rounding to 53 significant
    bits, as implemented here, is the exact binary64 behaviour.
  * OpenCV and PIL are outside collaborators of the repository. Their
    genuinely numeric primitives (the Otsu threshold value, contour
    detection, INTER_AREA resizing) are parameters of the embedding
    (structure CVOps); the simple ones (binary thresholding, bounding
    rectangle, border padding, cropping, 2x2 dilation, array slicing)
    are embedded concretely from their documented behaviour.
  * Images are lists of rows of grayscale values; the 4-channel output
    is a list of rows of RGBA pixels.
-/

/-- std_size, fixed to 50 in the constructor of NormalizedHandwritingEngine. -/
def stdSize : Nat := 50

/-- line_height, fixed to 65 in the constructor. -/
def lineHeight : Nat := 65

/-- char_spacing, fixed to 2 in the constructor. -/
def charSpacing : Nat := 2

/-- safe_zone = self.std_size - 4 in process_letter_contour. -/
def safeZone : Nat := stdSize - 4

/-- baseline_y = int(self.std_size * 0.70) = 35. -/
def baselineY : Nat := stdSize * 70 / 100

/-- small_punct list of process_letter_contour: period, comma, apostrophe,
double quote, backtick, hyphen. -/
def smallPunct : List Char := ['.', ',', Char.ofNat 39, Char.ofNat 34, Char.ofNat 96, '-']

/-- tall_letters list of process_letter_contour. -/
def tallLetters : List Char := ['f', 't', 'b', 'd', 'h', 'k', 'l']

/-- descenders list of process_letter_contour. -/
def descenders : List Char := ['g', 'j', 'p', 'q', 'y']

/-- short_letters list of process_letter_contour. -/
def shortLetters : List Char :=
  ['a', 'c', 'e', 'i', 'm', 'n', 'o', 'r', 's', 'u', 'v', 'w', 'x', 'z']

/-- The target_height if-chain of process_letter_contour, on the already
lower-cased character (char_type).  int(safe_zone * ratio) is rendered as
exact floor division. -/
def classTargetHeight (t : Char) : Nat :=
  if t ∈ smallPunct then safeZone * 20 / 100
  else if t ∈ tallLetters then safeZone * 65 / 100
  else if t ∈ descenders then safeZone * 65 / 100
  else if t ∈ shortLetters then safeZone * 35 / 100
  else safeZone * 60 / 100

/-- target_height (equivalently new_h) for a raw character reference:
char_type = char_ref.lower(). -/
def targetHeight (c : Char) : Nat := classTargetHeight c.toLower

/-- The two clamp statements guarding the composite:
if start_y < 0: start_y = 0; if start_y + new_h > std_size:
start_y = std_size - new_h. -/
def clampY (s : Int) (nh : Nat) : Int :=
  if (if s < 0 then 0 else s) + nh > (stdSize : Int) then (stdSize : Int) - nh
  else if s < 0 then 0 else s

/-- The unclamped start_y if-chain of process_letter_contour on the
lower-cased character. -/
def classRawStartY (t : Char) : Int :=
  if t = '.' ∨ t = ',' then (baselineY : Int) - classTargetHeight t
  else if t = Char.ofNat 39 ∨ t = Char.ofNat 34 ∨ t = Char.ofNat 96 then
    ((stdSize * 15 / 100 : Nat) : Int)
  else if t ∈ descenders then (baselineY : Int) - ((safeZone * 35 / 100 : Nat) : Int)
  else (baselineY : Int) - classTargetHeight t

/-- start_y after clamping, on the lower-cased character. -/
def classStartY (t : Char) : Int := clampY (classRawStartY t) (classTargetHeight t)

/-- start_y after clamping, for a raw character reference. -/
def startY (c : Char) : Int := classStartY c.toLower

/-- A contour as returned by cv2.findContours: its point list, together
with the value cv2.contourArea reports for it (an outside primitive,
recorded as data). -/
structure Contour where
  points : List (Nat × Nat)
  area : Nat
deriving DecidableEq

/-- valid_contours = [cnt for cnt in contours if cv2.contourArea(cnt) > 10];
if not valid_contours: valid_contours = contours. -/
def validContours (cs : List Contour) : List Contour :=
  let v := cs.filter (fun c => decide (10 < c.area))
  if v = [] then cs else v

/-- cv2.boundingRect over a point set: upright rectangle
(min x, min y, width, height) with inclusive integer extents. -/
def boundingRect (pts : List (Nat × Nat)) : Nat × Nat × Nat × Nat :=
  match pts with
  | [] => (0, 0, 0, 0)
  | p :: rest =>
    let xs := (p :: rest).map Prod.fst
    let ys := (p :: rest).map Prod.snd
    let x1 := xs.foldl Nat.min p.1
    let y1 := ys.foldl Nat.min p.2
    let x2 := xs.foldl Nat.max p.1
    let y2 := ys.foldl Nat.max p.2
    (x1, y1, x2 - x1 + 1, y2 - y1 + 1)

/-- Numpy slice thresh[y:y+h, x:x+w]. -/
def cropImg (m : List (List Nat)) (x y w h : Nat) : List (List Nat) :=
  ((m.drop y).take h).map (fun row => (row.drop x).take w)

/-- cv2.copyMakeBorder with BORDER_CONSTANT value 0 and the same margin p
on every side. -/
def padBorder (p : Nat) (m : List (List Nat)) : List (List Nat) :=
  let w := (m.headD []).length
  let blank := List.replicate (w + 2 * p) 0
  List.replicate p blank ++
    m.map (fun row => List.replicate p 0 ++ row ++ List.replicate p 0) ++
    List.replicate p blank

/-- The width read off an image shape (all rows of a numpy array share it). -/
def imgWidth (m : List (List Nat)) : Nat := (m.headD []).length

/-- cv2.threshold with THRESH_BINARY_INV and maxval 255:
destination is 0 where source exceeds t, else 255. -/
def invThreshold (t : Nat) (m : List (List Nat)) : List (List Nat) :=
  m.map (List.map (fun v => if t < v then 0 else 255))

/-- cv2.threshold with THRESH_BINARY and maxval 255:
destination is 255 where source exceeds t, else 0. -/
def thresholdBin (t : Nat) (m : List (List Nat)) : List (List Nat) :=
  m.map (List.map (fun v => if t < v then 255 else 0))

/-- Pixel access with value 0 outside the stored area. -/
def pixAt (m : List (List Nat)) (i j : Nat) : Nat := (m.getD i []).getD j 0

/-- One pass of cv2.dilate with the 2x2 all-ones kernel:
each destination pixel is the maximum over the 2x2 window. -/
def dilateOnce (m : List (List Nat)) : List (List Nat) :=
  (List.range m.length).map (fun i =>
    (List.range (imgWidth m)).map (fun j =>
      max (max (pixAt m i j) (pixAt m i (j + 1)))
        (max (pixAt m (i + 1) j) (pixAt m (i + 1) (j + 1)))))

/-- cv2.dilate with iterations = 2. -/
def dilate2 (m : List (List Nat)) : List (List Nat) := dilateOnce (dilateOnce m)

/-- Numpy assignment norm_canvas[start_y:start_y+new_h, 0:new_w] = resized
into the zero canvas np.zeros((std_size, new_w)). -/
def composite (resized : List (List Nat)) (sy nh nw : Nat) : List (List Nat) :=
  (List.range stdSize).map (fun i =>
    if sy ≤ i ∧ i < sy + nh then
      (List.range nw).map (fun j => pixAt resized (i - sy) j)
    else List.replicate nw 0)

/-- One 4-channel pixel of the output image. -/
structure RGBA where
  r : Nat
  g : Nat
  b : Nat
  a : Nat
deriving DecidableEq

/-- The rgba assembly: np.zeros((std_size, new_w, 4)) with the RGB channels
filled with ink_color and the alpha channel set to the mask. -/
def mkRGBA (ink : Nat × Nat × Nat) (nw : Nat) (alpha : List (List Nat)) :
    List (List RGBA) :=
  (List.range stdSize).map (fun i =>
    (List.range nw).map (fun j => ⟨ink.1, ink.2.1, ink.2.2, pixAt alpha i j⟩))

/-- The numeric OpenCV primitives the pipeline consumes, kept as parameters:
the Otsu threshold value chosen for a grayscale image, contour detection on
a binary image, and INTER_AREA resizing to a requested width and height.
The logic of process_letter_contour never inspects their internals. -/
structure CVOps where
  otsu : List (List Nat) → Nat
  findContours : List (List Nat) → List Contour
  resize : List (List Nat) → Nat → Nat → List (List Nat)

/-- The padded crop letter_roi right before resizing: Otsu inverse
threshold, contour detection, noise filter, bounding rectangle of the
concatenated retained points, crop, then the 10-pixel constant border. -/
def paddedRoi (cv : CVOps) (img : List (List Nat)) : List (List Nat) :=
  let thresh := invThreshold (cv.otsu img) img
  let valid := validContours (cv.findContours thresh)
  let rect := boundingRect (valid.foldr (fun c acc => c.points ++ acc) [])
  padBorder 10 (cropImg thresh rect.1 rect.2.1 rect.2.2.1 rect.2.2.2)

/-- Floor of log base 2 by structural recursion on a fuel argument, so
that concrete evaluations reduce (Nat.log2 itself unfolds by well-founded
recursion).  With fuel >= n the value is the floor of log2 n for n >= 1. -/
def log2fuel : Nat → Nat → Nat
  | 0, _ => 0
  | fuel + 1, n => if n < 2 then 0 else log2fuel fuel (n / 2) + 1

/-- Floor of log base 2 of n, 0 at 0: fuel n always suffices. -/
def nlog2 (n : Nat) : Nat := log2fuel n n

/-- Decides 2 ^ k <= a / b for natural a, b and an integer exponent k. -/
def pow2le (k : Int) (a b : Nat) : Bool :=
  if 0 <= k then decide (2 ^ k.toNat * b <= a) else decide (b <= 2 ^ (-k).toNat * a)

/-- The binade exponent of a / b for positive a, b: the unique e with
2 ^ e <= a / b < 2 ^ (e + 1).  The floor of log2 (a / b) differs from
log2 a - log2 b by at most one, so one comparison settles it. -/
def scaleExp (a b : Nat) : Int :=
  let d : Int := (nlog2 a : Int) - (nlog2 b : Int) - 1
  if pow2le (d + 1) a b then d + 1 else d

/-- Rounds (a / b) * 2 ^ (52 - e) to the nearest integer, ties to even:
the 53-bit significand of the correctly rounded binary64 quotient a / b
when e is its binade exponent. -/
def roundMantissa (a b : Nat) (e : Int) : Nat :=
  let nd : Nat × Nat :=
    if e <= 52 then (a * 2 ^ (52 - e).toNat, b) else (a, b * 2 ^ (e - 52).toNat)
  let n0 := nd.1 / nd.2
  let r := nd.1 % nd.2
  if 2 * r < nd.2 then n0
  else if nd.2 < 2 * r then n0 + 1
  else if n0 % 2 = 0 then n0 else n0 + 1

/-- The correctly rounded binary64 value of a / b, as a pair
(significand, power-of-two exponent) whose value is n * 2 ^ e.  This is
what CPython computes for true division of two nonnegative ints. -/
def floatOfRatio (a b : Nat) : Nat × Int :=
  if a = 0 ∨ b = 0 then (0, 0)
  else (roundMantissa a b (scaleExp a b), scaleExp a b - 52)

/-- Rounds the exactly represented value m * 2 ^ e to the nearest binary64
(53 significant bits, ties to even): the effect of one IEEE-754 multiply
whose exact product is m * 2 ^ e. -/
def roundFloat (m : Nat) (e : Int) : Nat × Int :=
  if m = 0 then (0, 0)
  else
    let l := nlog2 m
    if l <= 52 then (m * 2 ^ (52 - l), e - ((52 - l : Nat) : Int))
    else
      let sh := l - 52
      let n0 := m / 2 ^ sh
      let r := m % 2 ^ sh
      let half := 2 ^ (sh - 1)
      let n :=
        if r < half then n0
        else if half < r then n0 + 1
        else if n0 % 2 = 0 then n0 else n0 + 1
      (n, e + (sh : Int))

/-- new_w = int(new_h * aspect) with aspect = w / h, evaluated exactly as
CPython does: aspect is the correctly rounded binary64 quotient, the
product float(new_h) * aspect is correctly rounded (new_h <= 29 is exact
in binary64), and int() truncates toward zero.  This can differ by one
pixel from the exact floor of new_h * w / h. -/
def floatNewWidth (nh w h : Nat) : Nat :=
  let aspect := floatOfRatio w h
  let p := roundFloat (nh * aspect.1) aspect.2
  if 0 <= p.2 then p.1 * 2 ^ p.2.toNat else p.1 / 2 ^ (-p.2).toNat

/-- process_letter_contour.  The first argument models cv2.imread composed
with the grayscale conversion: none when the image cannot be read.  The
ink argument is self.ink_color. -/
def processLetterContour (cv : CVOps) (imread : Option (List (List Nat)))
    (charRef : Char) (ink : Nat × Nat × Nat) : Option (List (List RGBA)) :=
  match imread with
  | none => none
  | some img =>
    let thresh := invThreshold (cv.otsu img) img
    if cv.findContours thresh = [] then none
    else
      let roi := paddedRoi cv img
      let nh := targetHeight charRef
      let nw := floatNewWidth nh (imgWidth roi) roi.length
      let resized := cv.resize roi nw nh
      let canvas := composite resized (startY charRef).toNat nh nw
      some (mkRGBA ink nw (thresholdBin 127 (dilate2 canvas)))

/-- start_x of generate. -/
def startX : Nat := 200

/-- max_x of generate. -/
def maxX : Nat := 2200

/-- The initial curr_y of generate. -/
def topY : Nat := 200

/-- pixels_per_space = int(self.std_size * 0.4) = 20. -/
def pixelsPerSpace : Nat := stdSize * 4 / 10

/-- fallback_width = int(self.std_size * 0.5) = 25. -/
def fallbackWidth : Nat := stdSize * 5 / 10

/-- SPECIAL_CHAR_MAP of generate. -/
def specialCharMap (c : Char) : Option String :=
  if c = '.' then some "dot"
  else if c = Char.ofNat 34 then some "quote"
  else if c = ':' then some "colon"
  else if c = '?' then some "question"
  else if c = '*' then some "asterisk"
  else if c = '/' then some "slash"
  else if c = '\\' then some "backslash"
  else if c = '<' then some "lt"
  else if c = '>' then some "gt"
  else if c = '|' then some "pipe"
  else if c = ',' then some "comma"
  else if c = Char.ofNat 39 then some "apostrophe"
  else none

/-- folder_name = SPECIAL_CHAR_MAP.get(char, char.lower()). -/
def folderName (c : Char) : String := (specialCharMap c).getD (String.mk [c.toLower])

/-- img.width of a PIL image in this embedding. -/
def glyphWidth (g : List (List RGBA)) : Nat := (g.headD []).length

/-- The surroundings of one generate run: the OpenCV primitives, the sample
store (the image files os.listdir finds in a character folder, empty when
the folder is missing or holds no images), the file loader, the
random.choice selection, and self.ink_color. -/
structure Env where
  cv : CVOps
  store : String → List String
  load : String → String → Option (List (List Nat))
  pick : List String → String
  ink : Nat × Nat × Nat

/-- The per-character lookup of generate: when the folder has variants,
one is picked and handed to process_letter_contour; otherwise no glyph. -/
def resolveChar (e : Env) (c : Char) : Option (List (List RGBA)) :=
  match e.store (folderName c) with
  | [] => none
  | v :: vs =>
    processLetterContour e.cv (e.load (folderName c) (e.pick (v :: vs))) c e.ink

/-- The recorded word item: (image, width + char_spacing) on success,
(None, fallback_width) on any failure. -/
def charItem (e : Env) (c : Char) : Option (List (List RGBA)) × Nat :=
  match resolveChar e c with
  | some g => (some g, glyphWidth g + charSpacing)
  | none => (none, fallbackWidth)

/-- word_items for one word. -/
def wordItems (e : Env) (w : List Char) : List (Option (List (List RGBA)) × Nat) :=
  w.map (charItem e)

/-- word_total_width: the sum of the recorded item widths. -/
def totalWidth (items : List (Option (List (List RGBA)) × Nat)) : Nat :=
  (items.map Prod.snd).sum

/-- One canvas.paste call: the glyph and the (curr_x, curr_y) it is pasted at. -/
structure Paste where
  glyph : List (List RGBA)
  x : Nat
  y : Nat
deriving DecidableEq

/-- The item-drawing loop of generate: paste when an image is present,
always advance curr_x by the item width. -/
def drawItems : Nat × Nat → List (Option (List (List RGBA)) × Nat) →
    (Nat × Nat) × List Paste
  | st, [] => (st, [])
  | (x, y), (og, w) :: rest =>
    let res := drawItems (x + w, y) rest
    match og with
    | some g => (res.1, ⟨g, x, y⟩ :: res.2)
    | none => res

/-- One word of the drawing loop: the single wrap check
(curr_x + word_total_width > max_x) before any paste, the item loop, then
the inter-word advance by pixels_per_space. -/
def drawWord (st : Nat × Nat) (items : List (Option (List (List RGBA)) × Nat)) :
    (Nat × Nat) × List Paste :=
  let st1 := if st.1 + totalWidth items > maxX then (startX, st.2 + lineHeight) else st
  let res := drawItems st1 items
  ((res.1.1 + pixelsPerSpace, res.1.2), res.2)

/-- The word loop over one line. -/
def drawWords (e : Env) : Nat × Nat → List (List Char) → (Nat × Nat) × List Paste
  | st, [] => (st, [])
  | st, w :: ws =>
    let r1 := drawWord st (wordItems e w)
    let r2 := drawWords e r1.1 ws
    (r2.1, r1.2 ++ r2.2)

/-- The line loop: after each line curr_x resets to start_x and curr_y
advances by line_height unconditionally. -/
def drawLines (e : Env) : Nat × Nat → List (List (List Char)) → (Nat × Nat) × List Paste
  | st, [] => (st, [])
  | st, l :: ls =>
    let r1 := drawWords e st l
    let r2 := drawLines e (startX, r1.1.2 + lineHeight) ls
    (r2.1, r1.2 ++ r2.2)

/-- generate, reduced to the paste trace it performs on the canvas:
split on newlines, split each line on single spaces, draw. -/
def generate (e : Env) (text : String) : List Paste :=
  let ls := (text.split (fun c => c = Char.ofNat 10)).map
    (fun l => (l.split (fun c => c = ' ')).map String.toList)
  (drawLines e (startX, topY) ls).2

/-- Ratio table rendered from the words of the claim (round of ratio times
safe zone), kept separate from classTargetHeight for comparison. -/
def classSpecRatio (t : Char) : ℚ :=
  if t ∈ smallPunct then 0.20
  else if t ∈ tallLetters then 0.65
  else if t ∈ descenders then 0.65
  else if t ∈ shortLetters then 0.35
  else 0.60

/-- Retained contour set rendered from the words of the claim: discard
exactly the contours with area below 10, with the same fallback. -/
def specRetained (cs : List Contour) : List Contour :=
  let v := cs.filter (fun c => decide (10 ≤ c.area))
  if v = [] then cs else v

/-- Two contours with areas exactly 10 and 20: the input separating the
noise filter of the code from the one the claim describes. -/
def contoursCex : List Contour := [⟨[(0, 0)], 10⟩, ⟨[(1, 1)], 20⟩]

/-- Concrete OpenCV primitives for witness runs: one retained contour. -/
def cvWit : CVOps where
  otsu := fun _ => 0
  findContours := fun _ => [⟨[(0, 0)], 20⟩]
  resize := fun _ _ _ => []

/-- Concrete OpenCV primitives reporting no contours at all. -/
def cvNone : CVOps where
  otsu := fun _ => 0
  findContours := fun _ => []
  resize := fun _ _ _ => []

/-- A one-pixel grayscale sample image. -/
def imgWit : List (List Nat) := [[200]]

/-- The ink color the usage section passes to the constructor. -/
def inkWit : Nat × Nat × Nat := (0, 20, 100)

/-- The glyph the pipeline produces on the witness inputs for character a. -/
def glyphWit : List (List RGBA) :=
  (processLetterContour cvWit (some imgWit) 'a' inkWit).getD []

/-- The top-left pixel of the witness glyph. -/
def pixWit : RGBA := ((glyphWit.headD []).headD ⟨1, 1, 1, 1⟩)

/-- A one-pixel glyph used in layout witnesses. -/
def sampleGlyph : List (List RGBA) := [[⟨0, 20, 100, 255⟩]]

/-- OpenCV primitives for the width counterexample: one contour spanning a
41 x 7 ink region. -/
def cvC5 : CVOps where
  otsu := fun _ => 0
  findContours := fun _ => [⟨[(0, 0), (40, 6)], 20⟩]
  resize := fun _ _ _ => []

/-- A 7 x 41 all-ink sample: after the 10-pixel border its padded crop is
27 rows by 61 columns, the smallest realistic size at which the
double-precision width and the exact floor differ (27 * (61 / 27) gives
60.99999999999999 in binary64, so int() yields 60, not 61). -/
def imgC5 : List (List Nat) := List.replicate 7 (List.replicate 41 200)

/-- The glyph the pipeline produces on that sample for the digit 3
(default class, target height 27). -/
def glC5 : List (List RGBA) :=
  (processLetterContour cvC5 (some imgC5) '3' inkWit).getD []

/-- Surroundings with an empty sample store everywhere. -/
def envWit : Env where
  cv := cvWit
  store := fun _ => []
  load := fun _ _ => none
  pick := fun _ => ""
  ink := inkWit

/-- Every ratio branch of classTargetHeight is at most 29 pixels. -/
theorem classTargetHeight_le (t : Char) : classTargetHeight t ≤ 29 := by
  unfold classTargetHeight
  split_ifs <;> decide

/-- The clamp keeps the offset inside the canvas whenever the glyph is not
taller than the canvas. -/
theorem clampY_bounds (s : Int) (nh : Nat) (h : (nh : Int) ≤ (stdSize : Int)) :
    0 ≤ clampY s nh ∧ clampY s nh + nh ≤ (stdSize : Int) := by
  unfold clampY
  split_ifs <;> omega

/-- Every descender character receives the same clamped start offset 19. -/
theorem classStartY_desc : ∀ t ∈ descenders, classStartY t = 19 := by decide

/-- Every short character receives the same clamped start offset 19. -/
theorem classStartY_short : ∀ t ∈ shortLetters, classStartY t = 19 := by decide

/-- The item loop advances the cursor by the total item width, keeps the
vertical coordinate unchanged, and pastes only at or after the starting
horizontal position. -/
theorem drawItems_spec (items : List (Option (List (List RGBA)) × Nat)) :
    ∀ x y : Nat, (drawItems (x, y) items).1 = (x + totalWidth items, y) ∧
      ∀ p ∈ (drawItems (x, y) items).2, x ≤ p.x ∧ p.y = y := by
  induction items with
  | nil =>
    intro x y
    exact ⟨by simp [drawItems, totalWidth], by simp [drawItems]⟩
  | cons it rest ih =>
    intro x y
    obtain ⟨og, w⟩ := it
    have htw : totalWidth ((og, w) :: rest) = w + totalWidth rest := by
      simp [totalWidth]
    obtain ⟨ihst, ihps⟩ := ih (x + w) y
    cases og with
    | none =>
      refine ⟨?_, ?_⟩
      · simp only [drawItems, ihst, htw]
        rw [Nat.add_assoc]
      · intro p hp
        simp only [drawItems] at hp
        obtain ⟨h1, h2⟩ := ihps p hp
        exact ⟨by omega, h2⟩
    | some gim =>
      refine ⟨?_, ?_⟩
      · simp only [drawItems, ihst, htw]
        rw [Nat.add_assoc]
      · intro p hp
        simp only [drawItems, List.mem_cons] at hp
        rcases hp with rfl | hp
        · exact ⟨Nat.le_refl x, rfl⟩
        · obtain ⟨h1, h2⟩ := ihps p hp
          exact ⟨by omega, h2⟩

/-- Claim C1 counterexample: the code truncates the class ratio times the
safe zone, so for the tall character f the produced glyph height is 29
while round(0.65 * (std_size - 4)) = round(29.9) = 30. -/
theorem c1_round_counterexample :
    ¬ ((targetHeight 'f' : ℤ) = round ((0.65 : ℚ) * ((stdSize : ℚ) - 4))) := by
  have h : round ((0.65 : ℚ) * ((stdSize : ℚ) - 4)) = 30 := by
    rw [round_eq, Int.floor_eq_iff]; norm_num [stdSize]
  rw [h, show ((targetHeight 'f' : ℤ)) = 29 from rfl]
  decide

/-- Claim C1 (amended): for every input character, the resized glyph height
produced by process_letter_contour equals the floor (truncation) of
ratio times (std_size - 4), with ratio 0.20 for small punctuation, 0.65 for
tall ascenders and for descenders, 0.35 for short characters and 0.60
otherwise. -/
theorem c1_target_height_floor (c : Char) :
    (targetHeight c : ℤ) = ⌊classSpecRatio c.toLower * ((stdSize : ℚ) - 4)⌋ := by
  unfold targetHeight classTargetHeight classSpecRatio
  split_ifs
  · symm; rw [show ((safeZone * 20 / 100 : Nat) : ℤ) = 9 from rfl, Int.floor_eq_iff]
    norm_num [stdSize]
  · symm; rw [show ((safeZone * 65 / 100 : Nat) : ℤ) = 29 from rfl, Int.floor_eq_iff]
    norm_num [stdSize]
  · symm; rw [show ((safeZone * 65 / 100 : Nat) : ℤ) = 29 from rfl, Int.floor_eq_iff]
    norm_num [stdSize]
  · symm; rw [show ((safeZone * 35 / 100 : Nat) : ℤ) = 16 from rfl, Int.floor_eq_iff]
    norm_num [stdSize]
  · symm; rw [show ((safeZone * 60 / 100 : Nat) : ℤ) = 27 from rfl, Int.floor_eq_iff]
    norm_num [stdSize]

/-- Claim C2: a descender character and a short character, normalized
independently, are composited at the same clamped vertical offset, namely
baseline_y minus the short-class target height. -/
theorem c2_descender_short_alignment (c1 c2 : Char)
    (h1 : c1.toLower ∈ descenders) (h2 : c2.toLower ∈ shortLetters) :
    startY c1 = startY c2 ∧
      startY c1 = (baselineY : Int) - ((safeZone * 35 / 100 : Nat) : Int) := by
  have e1 : startY c1 = 19 := classStartY_desc c1.toLower h1
  have e2 : startY c2 = 19 := classStartY_short c2.toLower h2
  rw [e1, e2]
  exact ⟨rfl, by decide⟩

/-- Claim C2 witness at the concrete characters g and a. -/
theorem c2_alignment_witness :
    startY 'g' = startY 'a' ∧
      startY 'g' = (baselineY : Int) - ((safeZone * 35 / 100 : Nat) : Int) :=
  c2_descender_short_alignment 'g' 'a' (by decide) (by decide)

/-- Claim C3: every paste of one word happens on the line the single wrap
decision selects: when curr_x plus the word width exceeds max_x the word is
drawn entirely at curr_y + line_height starting at the left margin, and
otherwise entirely at curr_y at or after curr_x; all pastes of the word
share one vertical coordinate, so no word is split across two lines. -/
theorem c3_word_wrap (st : Nat × Nat) (items : List (Option (List (List RGBA)) × Nat)) :
    ∀ p ∈ (drawWord st items).2,
      p.y = (if st.1 + totalWidth items > maxX then st.2 + lineHeight else st.2) ∧
      (if st.1 + totalWidth items > maxX then startX else st.1) ≤ p.x := by
  obtain ⟨sx, sy⟩ := st
  intro p hp
  simp only [drawWord] at hp
  by_cases h : sx + totalWidth items > maxX
  · simp only [h, if_pos, if_true] at hp ⊢
    obtain ⟨h1, h2⟩ := (drawItems_spec items startX (sy + lineHeight)).2 p hp
    exact ⟨h2, h1⟩
  · simp only [h, if_neg, if_false] at hp ⊢
    obtain ⟨h1, h2⟩ := (drawItems_spec items sx sy).2 p hp
    exact ⟨h2, h1⟩

/-- Claim C3 witness: a one-item word at cursor (2190, 200) overflows
max_x = 2200 and is pasted at (200, 265), one line lower at the margin. -/
theorem c3_word_wrap_witness :
    (⟨sampleGlyph, 200, 265⟩ : Paste).y =
      (if 2190 + totalWidth [(some sampleGlyph, 30)] > maxX then 200 + lineHeight else 200) ∧
    (if 2190 + totalWidth [(some sampleGlyph, 30)] > maxX then startX else 2190) ≤
      (⟨sampleGlyph, 200, 265⟩ : Paste).x :=
  c3_word_wrap (2190, 200) [(some sampleGlyph, 30)] ⟨sampleGlyph, 200, 265⟩ (by decide)

/-- Claim C4: when the sample collection of a character is missing or empty,
or its normalization returns no glyph, the recorded item is the
(none, fallback_width) placeholder, drawing it pastes nothing, and the
cursor advances by exactly fallback_width. -/
theorem c4_missing_sample_fallback (e : Env) (c : Char) (x y : Nat)
    (h : e.store (folderName c) = [] ∨
      processLetterContour e.cv (e.load (folderName c) (e.pick (e.store (folderName c))))
        c e.ink = none) :
    charItem e c = (none, fallbackWidth) ∧
      drawItems (x, y) [charItem e c] = ((x + fallbackWidth, y), []) := by
  have hr : resolveChar e c = none := by
    unfold resolveChar
    rcases h with h | h
    · rw [h]
    · cases hs : e.store (folderName c) with
      | nil => rfl
      | cons v vs =>
        rw [hs] at h
        simpa using h
  have hc : charItem e c = (none, fallbackWidth) := by
    unfold charItem
    rw [hr]
  exact ⟨hc, by rw [hc]; rfl⟩

/-- Claim C4 witness: with an everywhere-empty store, the character z yields
the placeholder item and the cursor at (300, 200) moves to (325, 200) with
no paste. -/
theorem c4_missing_sample_fallback_witness :
    charItem envWit 'z' = (none, fallbackWidth) ∧
      drawItems (300, 200) [charItem envWit 'z'] = ((300 + fallbackWidth, 200), []) :=
  c4_missing_sample_fallback envWit 'z' 300 200 (Or.inl rfl)

/-- Claim C5 counterexample: the claimed width formula is the exact
truncation of new_h * w / h, but the program evaluates it in binary64.  On
a padded crop of 27 rows by 61 columns with default class height 27, the
returned glyph is 60 pixels wide while the exact truncated formula gives
61, so the claim as stated fails at this input. -/
theorem c5_exact_width_counterexample :
    processLetterContour cvC5 (some imgC5) '3' inkWit = some glC5 ∧
      glyphWidth glC5 = 60 ∧
      targetHeight '3' * imgWidth (paddedRoi cvC5 imgC5) / (paddedRoi cvC5 imgC5).length = 61 ∧
      glyphWidth glC5 ≠
        targetHeight '3' * imgWidth (paddedRoi cvC5 imgC5) / (paddedRoi cvC5 imgC5).length :=
  ⟨rfl, by decide, by decide, by decide⟩

/-- Claim C5 (amended): every glyph process_letter_contour returns has
height exactly std_size and only its width varies; the width is the
aspect-preserving value new_h * (w / h) of the padded crop as the program
computes it in IEEE-754 double precision, truncated to an integer (which
can differ by one pixel from the exact floor of new_h * w / h). -/
theorem c5_glyph_dimensions (cv : CVOps) (img : List (List Nat)) (c : Char)
    (ink : Nat × Nat × Nat) (gl : List (List RGBA))
    (h : processLetterContour cv (some img) c ink = some gl) :
    gl.length = stdSize ∧
      ∀ row ∈ gl, row.length =
        floatNewWidth (targetHeight c) (imgWidth (paddedRoi cv img)) (paddedRoi cv img).length := by
  simp only [processLetterContour] at h
  by_cases hc : cv.findContours (invThreshold (cv.otsu img) img) = []
  · rw [if_pos hc] at h
    exact absurd h (by simp)
  · rw [if_neg hc] at h
    obtain rfl := Option.some.inj h
    constructor
    · simp [mkRGBA]
    · intro row hrow
      simp only [mkRGBA, List.mem_map] at hrow
      obtain ⟨i, _, rfl⟩ := hrow
      simp

/-- Claim C5 witness: on the concrete witness inputs the glyph for the
character a has 50 rows, and its first row has the double-precision width
int(16 * (21 / 21)) = 16. -/
theorem c5_glyph_dimensions_witness :
    glyphWit.length = stdSize ∧
      (glyphWit.headD []).length =
        floatNewWidth (targetHeight 'a') (imgWidth (paddedRoi cvWit imgWit))
          (paddedRoi cvWit imgWit).length :=
  ⟨(c5_glyph_dimensions cvWit imgWit 'a' inkWit glyphWit rfl).1,
    (c5_glyph_dimensions cvWit imgWit 'a' inkWit glyphWit rfl).2
      (glyphWit.headD []) (by decide)⟩

/-- Claim C6: for every character, the clamped composite offset satisfies
start_y >= 0 and start_y + new_h <= std_size, so the composite stays inside
the std_size canvas. -/
theorem c6_composite_in_bounds (c : Char) :
    0 ≤ startY c ∧ startY c + (targetHeight c : Int) ≤ (stdSize : Int) := by
  have hle : (classTargetHeight c.toLower : Int) ≤ (stdSize : Int) := by
    have := classTargetHeight_le c.toLower
    simp only [stdSize]
    omega
  exact clampY_bounds (classRawStartY c.toLower) (classTargetHeight c.toLower) hle

/-- Claim C7 counterexample: on two contours of areas exactly 10 and 20,
the code discards the area-10 contour (it keeps only areas strictly above
10), while the claimed rule (discard only areas below 10) retains both. -/
theorem c7_area_filter_counterexample :
    validContours contoursCex = [⟨[(1, 1)], 20⟩] ∧
      validContours contoursCex ≠ specRetained contoursCex := by
  decide

/-- Claim C7 (amended): a contour is retained exactly when its area is
strictly greater than 10, except that when every contour has area at most
10 the filter result is empty and all contours are retained. -/
theorem c7_area_filter (cs : List Contour) (c : Contour) :
    c ∈ validContours cs ↔
      c ∈ cs ∧ (10 < c.area ∨ ∀ c2 ∈ cs, c2.area ≤ 10) := by
  unfold validContours
  by_cases hv : cs.filter (fun c => decide (10 < c.area)) = []
  · rw [hv, if_pos rfl]
    have hall : ∀ c2 ∈ cs, c2.area ≤ 10 := by
      intro c2 hc2
      have := List.filter_eq_nil_iff.mp hv c2 hc2
      simp only [decide_eq_true_eq] at this
      omega
    constructor
    · intro hc
      exact ⟨hc, Or.inr hall⟩
    · rintro ⟨hc, _⟩
      exact hc
  · rw [if_neg hv]
    simp only [List.mem_filter, decide_eq_true_eq]
    constructor
    · rintro ⟨hc, ha⟩
      exact ⟨hc, Or.inl ha⟩
    · rintro ⟨hc, ha | hall⟩
      · exact ⟨hc, ha⟩
      · exact absurd (List.filter_eq_nil_iff.mpr
          (fun c2 hc2 => by simpa using Nat.not_lt.mpr (hall c2 hc2))) hv

/-- Claim C8: process_letter_contour returns the no-glyph signal when the
image cannot be read, and when contour detection on the thresholded image
finds nothing; in both cases the result is none. -/
theorem c8_failure_returns_none (cv : CVOps) (c : Char) (ink : Nat × Nat × Nat) :
    processLetterContour cv none c ink = none ∧
      ∀ img, cv.findContours (invThreshold (cv.otsu img) img) = [] →
        processLetterContour cv (some img) c ink = none := by
  refine ⟨rfl, fun img h => ?_⟩
  simp only [processLetterContour]
  rw [if_pos h]

/-- Claim C8 witness: with contour detection reporting nothing, both the
unreadable image and the concrete one-pixel image yield none. -/
theorem c8_failure_returns_none_witness :
    processLetterContour cvNone none 'a' inkWit = none ∧
      processLetterContour cvNone (some imgWit) 'a' inkWit = none :=
  ⟨(c8_failure_returns_none cvNone 'a' inkWit).1,
    (c8_failure_returns_none cvNone 'a' inkWit).2 imgWit rfl⟩

/-- Claim C9: process_letter_contour is deterministic.  Its embedding takes
no randomness source (random.choice is consulted only in generate, outside
this function), so normalizing the same sample with the same character
twice yields identical output. -/
theorem c9_normalizer_deterministic (cv : CVOps) (imread : Option (List (List Nat)))
    (c : Char) (ink : Nat × Nat × Nat) :
    processLetterContour cv imread c ink = processLetterContour cv imread c ink := rfl

/-- Every pixel of a 127-thresholded mask, read with out-of-range default 0,
is exactly 0 or 255. -/
theorem pixAt_thresholdBin (m : List (List Nat)) (i j : Nat) :
    pixAt (thresholdBin 127 m) i j = 0 ∨ pixAt (thresholdBin 127 m) i j = 255 := by
  have hrow : ∀ (l : List Nat) (j : Nat),
      (l.map (fun v => if 127 < v then 255 else 0)).getD j 0 = 0 ∨
        (l.map (fun v => if 127 < v then 255 else 0)).getD j 0 = 255 := by
    intro l
    induction l with
    | nil => intro j; left; rfl
    | cons a t ih =>
      intro j
      cases j with
      | zero =>
        show (if 127 < a then 255 else 0) = 0 ∨ (if 127 < a then 255 else 0) = 255
        split_ifs
        · right; rfl
        · left; rfl
      | succ j => exact ih j
  unfold pixAt thresholdBin
  induction m generalizing i with
  | nil => left; rfl
  | cons r t ih =>
    cases i with
    | zero => exact hrow r j
    | succ i => exact ih i

/-- Every pixel of an rgba assembly over a 127-thresholded mask has binary
alpha and the ink color in its RGB channels. -/
theorem mkRGBA_pixels (ink : Nat × Nat × Nat) (nw : Nat) (m : List (List Nat)) :
    ∀ row ∈ mkRGBA ink nw (thresholdBin 127 m), ∀ p ∈ row,
      (p.a = 0 ∨ p.a = 255) ∧ p.r = ink.1 ∧ p.g = ink.2.1 ∧ p.b = ink.2.2 := by
  intro row hrow p hp
  simp only [mkRGBA, List.mem_map] at hrow
  obtain ⟨i, _, rfl⟩ := hrow
  simp only [List.mem_map] at hp
  obtain ⟨j, _, rfl⟩ := hp
  exact ⟨pixAt_thresholdBin m i j, rfl, rfl, rfl⟩

/-- Claim C10: in every glyph process_letter_contour returns, each pixel has
a binary alpha value (exactly 0 or 255) and RGB channels equal to the
configured ink color. -/
theorem c10_binary_alpha_ink (cv : CVOps) (img : List (List Nat)) (c : Char)
    (ink : Nat × Nat × Nat) (gl : List (List RGBA))
    (h : processLetterContour cv (some img) c ink = some gl) :
    ∀ row ∈ gl, ∀ p ∈ row,
      (p.a = 0 ∨ p.a = 255) ∧ p.r = ink.1 ∧ p.g = ink.2.1 ∧ p.b = ink.2.2 := by
  simp only [processLetterContour] at h
  by_cases hc : cv.findContours (invThreshold (cv.otsu img) img) = []
  · rw [if_pos hc] at h
    exact absurd h (by simp)
  · rw [if_neg hc] at h
    obtain rfl := Option.some.inj h
    exact mkRGBA_pixels ink _ _

/-- Claim C10 witness: the top-left pixel of the concrete witness glyph has
alpha 0 or 255 and carries the configured ink color (0, 20, 100). -/
theorem c10_binary_alpha_ink_witness :
    (pixWit.a = 0 ∨ pixWit.a = 255) ∧
      pixWit.r = inkWit.1 ∧ pixWit.g = inkWit.2.1 ∧ pixWit.b = inkWit.2.2 :=
  c10_binary_alpha_ink cvWit imgWit 'a' inkWit glyphWit rfl
    (glyphWit.headD []) (by decide) pixWit (by decide)
